import Mathlib

/-!
Verification of the goose MCP adapters (GitHub and Jira) found in
`crates/goose-mcp/src/github/mod.rs` and `crates/goose-mcp/src/jira/mod.rs`.

The adapters are thin HTTP glue: build a URL/path, attach headers, send,
and normalize the response.  We shallowly embed the response-handling and
path/header-building logic.  The network layer is modelled by its
observable inputs (the HTTP status and the response body text); the
external JSON text parser (`serde_json::from_str`) is kept abstract as a
function parameter `from_str` of the request routines, since none of the
properties depend on its behavior beyond what a given run returns.
-/

namespace GooseMcp

/-- Embedding of `serde_json::Value`.  Objects are association lists with
the textually first binding of a key the visible one (serde maps have
unique keys, so lookup order is immaterial for values produced by the
parser). -/
inductive Json where
  | null
  | bool (b : Bool)
  | num (n : Int)
  | str (s : String)
  | arr (items : List Json)
  | obj (fields : List (String × Json))

/-- `Value::get` with a string index: key lookup on objects, `None` on any
other variant. -/
def Json.get : Json → String → Option Json
  | .obj fields, key => fields.lookup key
  | _, _ => none

/-- `Value::as_str`: the payload of a string variant, else `None`. -/
def Json.as_str : Json → Option String
  | .str s => some s
  | _ => none

/-- The filter predicate of `GithubServer::get_comments` (github/mod.rs
lines 222-229): keep a comment unless `user.type` is a string equal to
"Bot"; every missing or non-string step defaults to keeping. -/
def keepComment (comment : Json) : Bool :=
  ((((comment.get "user").bind (fun u => u.get "type")).bind Json.as_str).map
      (fun t => t != "Bot")).getD true

/-- The post-processing step of `GithubServer::get_comments` (github/mod.rs
lines 219-234): filter arrays elementwise, pass any other value through. -/
def filterBotComments (json : Json) : Json :=
  match json with
  | .arr items => .arr (items.filter keepComment)
  | j => j

/-- A comment the claims call a bot comment: `user.type` exists, is a
string, and equals "Bot". -/
def isBotComment (comment : Json) : Bool :=
  (((comment.get "user").bind (fun u => u.get "type")).bind Json.as_str) == some "Bot"

/-- An HTTP status as observed by the adapters: the numeric code plus the
canonical reason phrase its `Display` rendering appends (`http::StatusCode`
prints as e.g. "404 Not Found"). -/
structure HttpStatus where
  code : Nat
  canonicalReason : String

/-- `StatusCode::is_success`: the 2xx range. -/
def HttpStatus.is_success (s : HttpStatus) : Bool :=
  200 ≤ s.code && s.code < 300

/-- The `Display` rendering of a status: numeric code, a space, the
canonical reason phrase. -/
def HttpStatus.display (s : HttpStatus) : String :=
  toString s.code ++ " " ++ s.canonicalReason

/-- `rmcp::model::ErrorCode::INTERNAL_ERROR` (JSON-RPC internal error). -/
def internalErrorCode : Int := -32603

/-- `rmcp::model::ErrorData` as the adapters build it: a code and a
message (the optional data payload is always `None` and omitted). -/
structure ErrorData where
  code : Int
  message : String

/-- `ErrorData::new(code, message, None)`. -/
def ErrorData.new (code : Int) (message : String) : ErrorData :=
  ⟨code, message⟩

/-- `GithubServer::request` (github/mod.rs lines 70-112) after the send and
body-read succeed: given the external JSON text parser `from_str`
(`serde_json::from_str`), the response status and the response body text,
produce the normalized outcome.  A non-2xx status yields an error naming
the status and the body; otherwise the body is parsed as JSON (there is no
empty-body case in this routine). -/
def githubRequest (from_str : String → Except String Json)
    (status : HttpStatus) (text : String) : Except ErrorData Json :=
  if !status.is_success then
    .error (ErrorData.new internalErrorCode
      ("GitHub API Error " ++ status.display ++ ": " ++ text))
  else
    match from_str text with
    | .ok v => .ok v
    | .error e => .error (ErrorData.new internalErrorCode
        ("Failed to parse JSON response: " ++ e))

/-- `JiraServer::request` (jira/mod.rs lines 76-133) after the send and
body-read succeed: like the GitHub routine but with its own error prefix
and, on success, an empty body short-circuits to JSON null before the
parser is consulted. -/
def jiraRequest (from_str : String → Except String Json)
    (status : HttpStatus) (text : String) : Except ErrorData Json :=
  if !status.is_success then
    .error (ErrorData.new internalErrorCode
      ("Jira API Error " ++ status.display ++ ": " ++ text))
  else if text = "" then
    .ok Json.null
  else
    match from_str text with
    | .ok v => .ok v
    | .error e => .error (ErrorData.new internalErrorCode
        ("Failed to parse JSON response: " ++ e))

/-- `GithubServer::get_pr_diff` (github/mod.rs lines 143-186) after the
send succeeds: a non-2xx status yields an error naming only the status
(the body is not read on this path), otherwise the body text is returned
verbatim. -/
def getPrDiffOutcome (status : HttpStatus) (text : String) :
    Except ErrorData String :=
  if !status.is_success then
    .error (ErrorData.new internalErrorCode
      ("GitHub API Error " ++ status.display))
  else
    .ok text

/-- The post-request step of `GithubServer::get_comments` (github/mod.rs
lines 208-239): run the shared request, then filter bot comments from an
array response and pass any other value through.  (The resulting value is
then pretty-printed verbatim into the text payload.) -/
def getCommentsOutcome (from_str : String → Except String Json)
    (status : HttpStatus) (text : String) : Except ErrorData Json :=
  match githubRequest from_str status text with
  | .error e => .error e
  | .ok json => .ok (filterBotComments json)

/-- `JiraServer::edit_issue` (jira/mod.rs lines 181-196) after the PUT
round trip: any request error propagates; a successful request's value is
discarded and the fixed confirmation text is returned. -/
def editIssueOutcome (from_str : String → Except String Json)
    (status : HttpStatus) (text : String) : Except ErrorData String :=
  match jiraRequest from_str status text with
  | .error e => .error e
  | .ok _ => .ok "Issue updated successfully."

/-- The path built by `JiraServer::get_dev_status` (jira/mod.rs lines
159-169): optional `application_type` and `data_type` default to "github"
and "pullrequest". -/
def getDevStatusPath (issue_id : Nat)
    (application_type data_type : Option String) : String :=
  "rest/dev-status/1.0/issue/detail?issueId=" ++ toString issue_id
    ++ "&applicationType=" ++ application_type.getD "github"
    ++ "&dataType=" ++ data_type.getD "pullrequest"

/-- `str::trim_end_matches('/')`: drop the maximal run of trailing
slashes. -/
def trimEndSlashes (s : String) : String :=
  ⟨(s.data.reverse.dropWhile (fun c => c == '/')).reverse⟩

/-- The `instance_url` computed by `JiraServer::new` (jira/mod.rs lines
60-63): the configured URL, or the placeholder default, with trailing
slashes stripped. -/
def mkInstanceUrl (configured : Option String) : String :=
  trimEndSlashes (configured.getD "https://jira.atlassian.com")

/-- The URL built by `JiraServer::request` (jira/mod.rs line 82):
`format!("{}/{}", self.instance_url, path)`. -/
def jiraRequestUrl (instance_url path : String) : String :=
  instance_url ++ "/" ++ path

/-- The `Authorization` header list: `Bearer <token>` exactly when a
credential was configured at construction. -/
def authHeaders : Option String → List (String × String)
  | some t => [("Authorization", "Bearer " ++ t)]
  | none => []

/-- Headers attached by `GithubServer::request` (github/mod.rs
lines 70-78). -/
def githubRequestHeaders (token : Option String) : List (String × String) :=
  ("Accept", "application/vnd.github.v3+json") :: authHeaders token

/-- Headers attached by `GithubServer::get_pr_diff` (github/mod.rs
lines 152-158). -/
def githubDiffHeaders (token : Option String) : List (String × String) :=
  ("Accept", "application/vnd.github.v3.diff") :: authHeaders token

/-- Headers attached by `JiraServer::request` (jira/mod.rs lines 83-91). -/
def jiraRequestHeaders (token : Option String) : List (String × String) :=
  ("Accept", "application/json") :: ("Content-Type", "application/json")
    :: authHeaders token

/-- An `Accept` value in the application/json family: `application/json`
itself or a `+json` structured-syntax suffix. -/
def jsonFamily (v : String) : Bool :=
  v == "application/json" || "+json".data.isSuffixOf v.data

/-- Substring search on character lists: `sub` occurs contiguously in the
list. -/
def containsSubL (sub : List Char) : List Char → Bool
  | [] => sub.isEmpty
  | c :: rest => sub.isPrefixOf (c :: rest) || containsSubL sub rest

/-- `s` contains `sub` as a contiguous substring. -/
def strContainsSub (s sub : String) : Bool :=
  containsSubL sub.data s.data

/-- Concrete stand-in for the external JSON text parser
(`serde_json::from_str`), used only to instantiate witnesses and
counterexamples at concrete inputs.  It reproduces the parser's verdict on
the documents those concrete inputs mention; in particular the empty
document is invalid JSON (the JSON grammar derives no empty text), which
is the only parser fact any claim depends on. -/
def fromStrModel (text : String) : Except String Json :=
  if text = "" then
    .error "EOF while parsing a value at line 1 column 0"
  else if text = "null" then .ok Json.null
  else if text = "{}" then .ok (Json.obj [])
  else if text = "[]" then .ok (Json.arr [])
  else .error "unmodelled document"

theorem keepComment_eq_not_isBot (c : Json) : keepComment c = !isBotComment c := by
  unfold keepComment isBotComment
  cases h : (((c.get "user").bind (fun u => u.get "type")).bind Json.as_str) with
  | none => rfl
  | some t =>
      cases ht : t == "Bot" <;> simp [bne, ht]

theorem length_filter_not_add_length_filter (p : Json → Bool) (l : List Json) :
    (l.filter (fun c => !p c)).length + (l.filter p).length = l.length := by
  induction l with
  | nil => rfl
  | cons x xs ih =>
      by_cases hx : p x = true
      · simp [List.filter, hx, ← ih]; omega
      · simp at hx
        simp [List.filter, hx, ← ih]; omega

/-- Claim C1: for an array response with N entries of which M have
`user.type` equal to the string "Bot", `get_comments` keeps exactly
N − M entries; the kept entries are the input entries themselves (so each
is identical field-for-field) taken in input order (a sublist). -/
theorem get_comments_filters_exactly_bot_entries (items : List Json) :
    filterBotComments (Json.arr items) = Json.arr (items.filter keepComment)
    ∧ (items.filter keepComment).length
        = items.length - (items.filter isBotComment).length
    ∧ (items.filter keepComment).Sublist items := by
  refine ⟨rfl, ?_, List.filter_sublist items⟩
  have hk : items.filter keepComment = items.filter (fun c => !isBotComment c) := by
    apply List.filter_congr
    intro c _
    exact keepComment_eq_not_isBot c
  have := length_filter_not_add_length_filter isBotComment items
  rw [hk]
  omega

theorem containsSubL_nil (b : List Char) : containsSubL [] b = true := by
  cases b with
  | nil => rfl
  | cons c rest => simp [containsSubL, List.isPrefixOf]

theorem isPrefixOf_self_append : ∀ (l t : List Char), l.isPrefixOf (l ++ t) = true
  | [], _ => by simp [List.isPrefixOf]
  | a :: l, t => by
      simp [List.isPrefixOf, List.cons_append, isPrefixOf_self_append l t]

theorem containsSubL_here (sub t : List Char) (h : sub.isPrefixOf t = true) :
    containsSubL sub t = true := by
  cases t with
  | nil =>
      cases sub with
      | nil => rfl
      | cons s ss => simp [List.isPrefixOf] at h
  | cons c rest => simp [containsSubL, h]

theorem containsSubL_append (sub : List Char) :
    ∀ (a b : List Char), containsSubL sub (a ++ (sub ++ b)) = true := by
  intro a
  induction a with
  | nil =>
      intro b
      simpa using containsSubL_here sub (sub ++ b) (isPrefixOf_self_append sub b)
  | cons x a' ih =>
      intro b
      simp only [List.cons_append, containsSubL, List.append_eq, ih b, Bool.or_true]

theorem strContains_of_eq_append (s a sub b : String) (h : s = a ++ (sub ++ b)) :
    strContainsSub s sub = true := by
  subst h
  unfold strContainsSub
  rw [String.data_append, String.data_append]
  exact containsSubL_append sub.data a.data b.data

/-- Claim C2: an entry with no `user` field, or whose `user.type` field is
absent, or whose `user.type` is present but not a JSON string, is retained
by the `get_comments` filter (fail-open). -/
theorem get_comments_filter_fails_open (c : Json)
    (h : c.get "user" = none
      ∨ (∃ u, c.get "user" = some u ∧ u.get "type" = none)
      ∨ (∃ u t, c.get "user" = some u ∧ u.get "type" = some t ∧ t.as_str = none)) :
    keepComment c = true := by
  unfold keepComment
  rcases h with h | ⟨u, hu, ht⟩ | ⟨u, t, hu, ht, hs⟩
  · rw [h]; rfl
  · rw [hu]; simp [ht]
  · rw [hu]; simp [ht, hs]

/-- An entry with no `user` field at all is kept. -/
theorem get_comments_filter_fails_open_witness :
    (Json.obj [("body", Json.str "hi")]).get "user" = none
    ∧ keepComment (Json.obj [("body", Json.str "hi")]) = true := by
  have h : (Json.obj [("body", Json.str "hi")]).get "user" = none := rfl
  exact ⟨h, get_comments_filter_fails_open _ (Or.inl h)⟩

/-- Claim C6: when `application_type` and `data_type` are omitted, the
path built by `get_dev_status` contains the query-string fragment
`applicationType=github&dataType=pullrequest`. -/
theorem get_dev_status_default_query (issue_id : Nat) :
    strContainsSub (getDevStatusPath issue_id none none)
      "applicationType=github&dataType=pullrequest" = true := by
  refine strContains_of_eq_append _
    ("rest/dev-status/1.0/issue/detail?issueId=" ++ toString issue_id ++ "&") _ "" ?_
  rw [String.append_empty]
  apply String.ext
  simp only [getDevStatusPath, Option.getD_none, String.data_append, List.append_assoc]
  congr 2

/-- Claim C10: the bot-comment filtering step of `get_comments` is
idempotent on arrays: filtering its own output changes nothing. -/
theorem bot_filter_idempotent (items : List Json) :
    filterBotComments (filterBotComments (Json.arr items))
      = filterBotComments (Json.arr items) := by
  simp [filterBotComments, List.filter_filter]

/-- Claim C3, amended: on a non-2xx status the shared request routines of
both adapters return an error whose message contains the numeric status
code and the verbatim response body; the diff operation's error contains
the numeric status code but is built without the body. -/
theorem request_error_contains_status_and_body
    (from_str : String → Except String Json) (status : HttpStatus) (text : String)
    (h : status.is_success = false) :
    (∃ e, githubRequest from_str status text = .error e
       ∧ strContainsSub e.message (toString status.code) = true
       ∧ strContainsSub e.message text = true)
    ∧ (∃ e, jiraRequest from_str status text = .error e
       ∧ strContainsSub e.message (toString status.code) = true
       ∧ strContainsSub e.message text = true)
    ∧ (∃ e, getPrDiffOutcome status text = .error e
       ∧ strContainsSub e.message (toString status.code) = true) := by
  have hg : githubRequest from_str status text
      = .error (ErrorData.new internalErrorCode
          ("GitHub API Error " ++ status.display ++ ": " ++ text)) := by
    simp [githubRequest, h]
  have hj : jiraRequest from_str status text
      = .error (ErrorData.new internalErrorCode
          ("Jira API Error " ++ status.display ++ ": " ++ text)) := by
    simp [jiraRequest, h]
  have hd : getPrDiffOutcome status text
      = .error (ErrorData.new internalErrorCode
          ("GitHub API Error " ++ status.display)) := by
    simp [getPrDiffOutcome, h]
  refine ⟨⟨_, hg, ?_, ?_⟩, ⟨_, hj, ?_, ?_⟩, ⟨_, hd, ?_⟩⟩
  · exact strContains_of_eq_append _ "GitHub API Error " _
      (" " ++ status.canonicalReason ++ (": " ++ text))
      (by simp [ErrorData.new, HttpStatus.display, String.append_assoc])
  · exact strContains_of_eq_append _
      ("GitHub API Error " ++ status.display ++ ": ") _ ""
      (by simp [ErrorData.new, String.append_empty, String.append_assoc])
  · exact strContains_of_eq_append _ "Jira API Error " _
      (" " ++ status.canonicalReason ++ (": " ++ text))
      (by simp [ErrorData.new, HttpStatus.display, String.append_assoc])
  · exact strContains_of_eq_append _
      ("Jira API Error " ++ status.display ++ ": ") _ ""
      (by simp [ErrorData.new, String.append_empty, String.append_assoc])
  · exact strContains_of_eq_append _ "GitHub API Error " _
      (" " ++ status.canonicalReason)
      (by simp [ErrorData.new, HttpStatus.display, String.append_assoc])

/-- A 503 with a distinctive body: both shared routines name the code and
the body, and the diff error names the code. -/
theorem request_error_contains_status_and_body_witness :
    (HttpStatus.mk 503 "Service Unavailable").is_success = false
    ∧ ((∃ e, githubRequest fromStrModel ⟨503, "Service Unavailable"⟩ "upstream-detail"
          = .error e
        ∧ strContainsSub e.message (toString (503 : Nat)) = true
        ∧ strContainsSub e.message "upstream-detail" = true)
      ∧ (∃ e, jiraRequest fromStrModel ⟨503, "Service Unavailable"⟩ "upstream-detail"
          = .error e
        ∧ strContainsSub e.message (toString (503 : Nat)) = true
        ∧ strContainsSub e.message "upstream-detail" = true)
      ∧ (∃ e, getPrDiffOutcome ⟨503, "Service Unavailable"⟩ "upstream-detail"
          = .error e
        ∧ strContainsSub e.message (toString (503 : Nat)) = true)) :=
  ⟨rfl, request_error_contains_status_and_body fromStrModel
    ⟨503, "Service Unavailable"⟩ "upstream-detail" rfl⟩

/-- Counterexample to claim C3 as stated: at a 404 the diff operation's
error message omits the upstream body text entirely. -/
theorem get_pr_diff_error_lacks_body :
    getPrDiffOutcome ⟨404, "Not Found"⟩ "secret upstream body"
      = .error (ErrorData.new internalErrorCode "GitHub API Error 404 Not Found")
    ∧ strContainsSub "GitHub API Error 404 Not Found" "secret upstream body" = false :=
  ⟨rfl, rfl⟩

/-- Claim C4, amended: on a success status with an empty body the
issue-tracker routine returns JSON null without consulting the parser; the
GitHub routine has no such case (see the counterexample). -/
theorem jira_empty_body_yields_null (from_str : String → Except String Json)
    (status : HttpStatus) (h : status.is_success = true) :
    jiraRequest from_str status "" = .ok Json.null := by
  simp [jiraRequest, h]

/-- A 204 with an empty body yields JSON null from the Jira routine. -/
theorem jira_empty_body_yields_null_witness :
    (HttpStatus.mk 204 "No Content").is_success = true
    ∧ jiraRequest fromStrModel ⟨204, "No Content"⟩ "" = .ok Json.null :=
  ⟨rfl, jira_empty_body_yields_null fromStrModel ⟨204, "No Content"⟩ rfl⟩

/-- Counterexample to claim C4 as stated: the GitHub routine feeds an
empty body on a 200 straight to the JSON parser, which rejects the empty
document, so the result is a parse error rather than JSON null. -/
theorem github_empty_body_parse_error :
    githubRequest fromStrModel ⟨200, "OK"⟩ ""
      = .error (ErrorData.new internalErrorCode
          "Failed to parse JSON response: EOF while parsing a value at line 1 column 0")
    ∧ githubRequest fromStrModel ⟨200, "OK"⟩ "" ≠ .ok Json.null := by
  refine ⟨rfl, ?_⟩
  intro hcontra
  exact Except.noConfusion hcontra

/-- Claim C5: a successful `edit_issue` always yields the fixed
confirmation text, whatever the upstream body was. -/
theorem edit_issue_returns_fixed_literal (from_str : String → Except String Json)
    (status : HttpStatus) (text s : String)
    (h : editIssueOutcome from_str status text = .ok s) :
    s = "Issue updated successfully." := by
  unfold editIssueOutcome at h
  cases hr : jiraRequest from_str status text with
  | error e => rw [hr] at h; exact Except.noConfusion h
  | ok v =>
      rw [hr] at h
      injection h with h2
      exact h2.symm

/-- A successful 204 edit produces exactly the confirmation text. -/
theorem edit_issue_returns_fixed_literal_witness :
    editIssueOutcome fromStrModel ⟨204, "No Content"⟩ ""
      = .ok "Issue updated successfully."
    ∧ "Issue updated successfully." = "Issue updated successfully." :=
  ⟨rfl, edit_issue_returns_fixed_literal fromStrModel ⟨204, "No Content"⟩ ""
    "Issue updated successfully." rfl⟩

/-- Claim C9: when the parsed response is not an array, `get_comments`
skips the bot filter and returns the value unchanged instead of erroring. -/
theorem get_comments_non_array_passthrough (from_str : String → Except String Json)
    (status : HttpStatus) (text : String) (j : Json)
    (h : githubRequest from_str status text = .ok j)
    (hna : ∀ items, j ≠ Json.arr items) :
    getCommentsOutcome from_str status text = .ok j ∧ filterBotComments j = j := by
  have hfix : filterBotComments j = j := by
    cases j with
    | arr items => exact absurd rfl (hna items)
    | null => rfl
    | bool b => rfl
    | num n => rfl
    | str s => rfl
    | obj fields => rfl
  refine ⟨?_, hfix⟩
  unfold getCommentsOutcome
  rw [h]
  simp only [hfix]

/-- A body parsing to JSON null passes through `get_comments` unchanged. -/
theorem get_comments_non_array_passthrough_witness :
    getCommentsOutcome fromStrModel ⟨200, "OK"⟩ "null" = .ok Json.null
    ∧ filterBotComments Json.null = Json.null :=
  get_comments_non_array_passthrough fromStrModel ⟨200, "OK"⟩ "null" Json.null rfl
    (fun _ hcontra => Json.noConfusion hcontra)

theorem head_dropWhile_not (p : Char → Bool) :
    ∀ (l : List Char) (a : Char), (l.dropWhile p).head? = some a → p a = false := by
  intro l
  induction l with
  | nil => intro a h; exact absurd h (by simp)
  | cons x xs ih =>
      intro a h
      rw [List.dropWhile_cons] at h
      split at h
      · exact ih a h
      · next hx =>
          simp only [List.head?_cons, Option.some.injEq] at h
          subst h
          simpa using hx

/-- Claim C7: a configured base URL ending in one or more slashes has that
whole trailing run stripped at construction, the stored base URL no longer
ends in a slash (so the single separator inserted by the request routine
creates no double slash at the join point), and every request URL is the
stored base, one slash, then the path. -/
theorem jira_base_url_trailing_slash_normalized (s : String)
    (h : s.data.getLast? = some '/') :
    (∃ k, 1 ≤ k ∧ s = mkInstanceUrl (some s) ++ String.mk (List.replicate k '/'))
    ∧ (mkInstanceUrl (some s)).data.getLast? ≠ some '/'
    ∧ ∀ path, jiraRequestUrl (mkInstanceUrl (some s)) path
        = mkInstanceUrl (some s) ++ "/" ++ path := by
  refine ⟨?_, ?_, fun path => rfl⟩
  · refine ⟨(s.data.reverse.takeWhile (fun c => c == '/')).length, ?_, ?_⟩
    · have hrev : s.data.reverse.head? = some '/' := by
        rw [List.head?_reverse]; exact h
      cases hcons : s.data.reverse with
      | nil => rw [hcons] at hrev; exact absurd hrev (by simp)
      | cons c rest =>
          rw [hcons] at hrev
          simp only [List.head?_cons, Option.some.injEq] at hrev
          subst hrev
          rw [List.takeWhile_cons]
          simp
    · apply String.ext
      rw [String.data_append]
      show s.data
        = (s.data.reverse.dropWhile (fun c => c == '/')).reverse
          ++ List.replicate (s.data.reverse.takeWhile (fun c => c == '/')).length '/'
      have hsplit : s.data.reverse.takeWhile (fun c => c == '/')
            ++ s.data.reverse.dropWhile (fun c => c == '/') = s.data.reverse :=
        List.takeWhile_append_dropWhile ..
      have hall : ∀ b ∈ s.data.reverse.takeWhile (fun c => c == '/'), b = '/' := by
        intro b hb
        simpa using List.mem_takeWhile_imp hb
      have hrevrepl : (s.data.reverse.takeWhile (fun c => c == '/')).reverse
          = List.replicate (s.data.reverse.takeWhile (fun c => c == '/')).length '/' := by
        rw [List.eq_replicate_iff]
        refine ⟨by simp, ?_⟩
        intro b hb
        exact hall b (List.mem_reverse.mp hb)
      calc s.data = s.data.reverse.reverse := (List.reverse_reverse _).symm
        _ = (s.data.reverse.takeWhile (fun c => c == '/')
              ++ s.data.reverse.dropWhile (fun c => c == '/')).reverse := by rw [hsplit]
        _ = (s.data.reverse.dropWhile (fun c => c == '/')).reverse
              ++ (s.data.reverse.takeWhile (fun c => c == '/')).reverse := by
            rw [List.reverse_append]
        _ = (s.data.reverse.dropWhile (fun c => c == '/')).reverse
              ++ List.replicate (s.data.reverse.takeWhile (fun c => c == '/')).length '/' := by
            rw [hrevrepl]
  · intro hcontra
    have hlast : ((s.data.reverse.dropWhile (fun c => c == '/')).reverse).getLast?
        = some '/' := hcontra
    rw [List.getLast?_reverse] at hlast
    have := head_dropWhile_not (fun c => c == '/') s.data.reverse '/' hlast
    simp at this

/-- A base URL with two trailing slashes is normalized and joined with a
single separator. -/
theorem jira_base_url_trailing_slash_normalized_witness :
    ("https://jira.example.com//" : String).data.getLast? = some '/'
    ∧ ((∃ k, 1 ≤ k ∧ "https://jira.example.com//"
          = mkInstanceUrl (some "https://jira.example.com//")
            ++ String.mk (List.replicate k '/'))
      ∧ (mkInstanceUrl (some "https://jira.example.com//")).data.getLast? ≠ some '/'
      ∧ ∀ path, jiraRequestUrl (mkInstanceUrl (some "https://jira.example.com//")) path
          = mkInstanceUrl (some "https://jira.example.com//") ++ "/" ++ path) :=
  ⟨rfl, jira_base_url_trailing_slash_normalized "https://jira.example.com//" rfl⟩

/-- Claim C8: every outbound request of either adapter carries an `Accept`
header in the application/json family (the diff operation instead carries
the GitHub diff media type), and carries `Authorization: Bearer <token>`
exactly when a credential was configured. -/
theorem outbound_headers_invariant (token : Option String) :
    (∃ v, (githubRequestHeaders token).lookup "Accept" = some v ∧ jsonFamily v = true)
    ∧ (githubDiffHeaders token).lookup "Accept" = some "application/vnd.github.v3.diff"
    ∧ (∃ v, (jiraRequestHeaders token).lookup "Accept" = some v ∧ jsonFamily v = true)
    ∧ (githubRequestHeaders token).lookup "Authorization"
        = token.map (fun t => "Bearer " ++ t)
    ∧ (githubDiffHeaders token).lookup "Authorization"
        = token.map (fun t => "Bearer " ++ t)
    ∧ (jiraRequestHeaders token).lookup "Authorization"
        = token.map (fun t => "Bearer " ++ t) := by
  cases token with
  | none => exact ⟨⟨_, rfl, rfl⟩, rfl, ⟨_, rfl, rfl⟩, rfl, rfl, rfl⟩
  | some t => exact ⟨⟨_, rfl, rfl⟩, rfl, ⟨_, rfl, rfl⟩, rfl, rfl, rfl⟩

end GooseMcp
